import Mathlib

/-!
# Verification of the report pipeline of google-ads-api-developer-assistant

A shallow embedding of the report-query construction, date-range
resolution, result flattening, console/CSV rendering, and the
bounded-concurrency multi-report fetch found in
`api_examples/conversion_reports.py`,
`api_examples/disapproved_ads_reports.py` and
`api_examples/parallel_report_downloader_optimized.py`,
together with proofs of the specified properties.

Python's `list(set(xs))` has an unspecified iteration order (string
hashing is randomized between runs), so the deduplicated field list is
modelled as an arbitrary list constrained by `IsPySetList`: it has no
duplicates and the same membership as the input.  All theorems about the
built query quantify over every such list.
-/

/-- Python `sep.join(parts)`. -/
def pyJoin (sep : String) : List String → String
  | [] => ""
  | [p] => p
  | p :: q :: rest => p ++ sep ++ pyJoin sep (q :: rest)

theorem pyJoin_cons_cons (sep p q : String) (rest : List String) :
    pyJoin sep (p :: q :: rest) = p ++ sep ++ pyJoin sep (q :: rest) := rfl

theorem toList_append (a b : String) : (a ++ b).toList = a.toList ++ b.toList := rfl

/-- Number of occurrences of `pat` as a contiguous sublist of `s`
(counting every start position, including the end-of-list position for
the empty pattern). -/
def countOcc (pat : List Char) : List Char → Nat
  | [] => if pat.isEmpty then 1 else 0
  | c :: rest => (if pat.isPrefixOf (c :: rest) then 1 else 0) + countOcc pat rest

/-- `s` contains `pat` as a contiguous substring. -/
def StrContains (s pat : String) : Prop :=
  ∃ a b : String, s = a ++ pat ++ b

theorem countOcc_cons (pat : List Char) (c : Char) (s : List Char) :
    countOcc pat (c :: s) =
      (if pat.isPrefixOf (c :: s) then 1 else 0) + countOcc pat s := rfl

theorem countOcc_append_pat (pat a b : List Char) :
    1 ≤ countOcc pat (a ++ pat ++ b) := by
  induction a with
  | nil =>
    cases hp : pat with
    | nil =>
      cases b with
      | nil => simp [countOcc]
      | cons c r =>
        rw [List.nil_append, List.nil_append, countOcc_cons]
        simp [List.isPrefixOf]
    | cons p pt =>
      have hpre : (p :: pt).isPrefixOf (p :: (pt ++ b)) = true := by
        rw [List.isPrefixOf_iff_prefix]
        exact ⟨b, by simp⟩
      rw [List.nil_append, List.cons_append, countOcc_cons, hpre]
      simp
  | cons c a ih =>
    rw [List.cons_append, List.cons_append, countOcc_cons]
    omega

theorem countOcc_le_count_head (c : Char) (pt s : List Char) :
    countOcc (c :: pt) s ≤ s.count c := by
  induction s with
  | nil => simp [countOcc]
  | cons d rest ih =>
    rw [countOcc_cons]
    by_cases hp : (c :: pt).isPrefixOf (d :: rest) = true
    · have hdc : d = c := by
        rw [List.isPrefixOf_iff_prefix] at hp
        rcases hp with ⟨t, ht⟩
        rw [List.cons_append] at ht
        injection ht with h1 h2
        exact h1.symm
      subst hdc
      rw [if_pos hp, List.count_cons_self]
      omega
    · rw [if_neg hp]
      have hmono : rest.count c ≤ (d :: rest).count c := by
        rcases eq_or_ne d c with h | h
        · subst h; rw [List.count_cons_self]; omega
        · rw [List.count_cons_of_ne (Ne.symm h)]
      omega

theorem strContains_countOcc {s pat : String} (h : StrContains s pat) :
    1 ≤ countOcc pat.toList s.toList := by
  rcases h with ⟨a, b, rfl⟩
  rw [toList_append, toList_append]
  exact countOcc_append_pat pat.toList a.toList b.toList

theorem not_strContains_of_count_head {s : String} {c : Char} {pt : List Char}
    (h : s.toList.count c = 0) : ¬ StrContains s (String.mk (c :: pt)) := by
  intro hc
  have h1 := strContains_countOcc hc
  have h2 := countOcc_le_count_head c pt s.toList
  simp only [String.toList] at h1 h2 h
  omega

theorem count_pyJoin_eq_zero (c : Char) (sep : String) (l : List String)
    (hsep : sep.toList.count c = 0) (hl : ∀ x ∈ l, x.toList.count c = 0) :
    (pyJoin sep l).toList.count c = 0 := by
  induction l with
  | nil => simp [pyJoin]
  | cons p rest ih =>
    cases rest with
    | nil => simpa [pyJoin] using hl p (by simp)
    | cons q r =>
      rw [pyJoin_cons_cons, toList_append, toList_append, List.count_append,
        List.count_append]
      have hp := hl p (by simp)
      have hrest : ∀ x ∈ q :: r, x.toList.count c = 0 := by
        intro x hx; exact hl x (by simp [hx])
      rw [hp, hsep, ih hrest]

/-!
## Date model

Shallow embedding of `_calculate_date_range`
(`api_examples/conversion_reports.py`, lines 45-101).  `datetime.now()`
is injected as an explicit `today`; `timedelta(days=k)` subtraction is
the `k`-fold iterate of the previous-calendar-day function.
-/

structure PyDate where
  year : Int
  month : Nat
  day : Nat
deriving DecidableEq, Repr

def isLeapYear (y : Int) : Bool :=
  (y % 4 == 0 && y % 100 != 0) || y % 400 == 0

def daysInMonth (y : Int) (m : Nat) : Nat :=
  if m = 2 then (if isLeapYear y then 29 else 28)
  else if m = 4 ∨ m = 6 ∨ m = 9 ∨ m = 11 then 30
  else 31

def ValidDate (d : PyDate) : Prop :=
  1 ≤ d.year ∧ 1 ≤ d.month ∧ d.month ≤ 12 ∧ 1 ≤ d.day ∧
    d.day ≤ daysInMonth d.year d.month

instance (d : PyDate) : Decidable (ValidDate d) := by
  unfold ValidDate; infer_instance

/-- The calendar day before `d`: `d - timedelta(days=1)` on valid dates. -/
def prevDay (d : PyDate) : PyDate :=
  if 1 < d.day then ⟨d.year, d.month, d.day - 1⟩
  else if 1 < d.month then ⟨d.year, d.month - 1, daysInMonth d.year (d.month - 1)⟩
  else ⟨d.year - 1, 12, 31⟩

/-- `d - timedelta(days=k)`. -/
def subDays (d : PyDate) (k : Nat) : PyDate := prevDay^[k] d

/-- `d.replace(day=1)`. -/
def firstOfMonth (d : PyDate) : PyDate := ⟨d.year, d.month, 1⟩

/-- Calendar order on dates (lexicographic year, month, day). -/
def dateLE (a b : PyDate) : Prop :=
  a.year < b.year ∨
    (a.year = b.year ∧
      (a.month < b.month ∨ (a.month = b.month ∧ a.day ≤ b.day)))

instance (a b : PyDate) : Decidable (dateLE a b) := by
  unfold dateLE; infer_instance

theorem dateLE_refl (a : PyDate) : dateLE a a := by unfold dateLE; omega

theorem dateLE_trans {a b c : PyDate} (h1 : dateLE a b) (h2 : dateLE b c) :
    dateLE a c := by
  unfold dateLE at h1 h2 ⊢
  omega

theorem prevDay_dateLE (d : PyDate) : dateLE (prevDay d) d := by
  unfold prevDay dateLE
  split_ifs with h1 h2 <;> (simp; try omega)

theorem subDays_dateLE (d : PyDate) (k : Nat) : dateLE (subDays d k) d := by
  induction k with
  | zero => exact dateLE_refl d
  | succ n ih =>
    have hs : subDays d (n + 1) = prevDay (subDays d n) := by
      unfold subDays
      rw [Function.iterate_succ_apply']
    rw [hs]
    exact dateLE_trans (prevDay_dateLE _) ih

theorem one_le_daysInMonth (y : Int) (m : Nat) : 1 ≤ daysInMonth y m := by
  unfold daysInMonth
  split_ifs <;> omega

/-- The date-range presets of `_calculate_date_range` (lines 66-89). -/
def presetRange (preset : String) (today : PyDate) : Option (PyDate × PyDate) :=
  if preset = "LAST_7_DAYS" then some (subDays today 7, today)
  else if preset = "LAST_10_DAYS" then some (subDays today 10, today)
  else if preset = "LAST_30_DAYS" then some (subDays today 30, today)
  else if preset = "LAST_32_DAYS" then some (subDays today 32, today)
  else if preset = "LAST_MONTH" then
    let lastOfPrev := subDays (firstOfMonth today) 1
    some (firstOfMonth lastOfPrev, lastOfPrev)
  else if preset = "LAST_6_MONTHS" then some (subDays today 180, today)
  else if preset = "LAST_YEAR" then some (subDays today 365, today)
  else none

def recognizedPreset (p : String) : Bool :=
  (["LAST_7_DAYS", "LAST_10_DAYS", "LAST_30_DAYS", "LAST_32_DAYS",
    "LAST_MONTH", "LAST_6_MONTHS", "LAST_YEAR"] : List String).contains p

/-- Python `str.split(sep)` for a single-character separator. -/
def splitOnChar (sep : Char) : List Char → List (List Char)
  | [] => [[]]
  | c :: rest =>
    match splitOnChar sep rest with
    | [] => [[c]]
    | g :: gs => if c = sep then [] :: g :: gs else (c :: g) :: gs

def digitsToNat (l : List Char) : Nat :=
  l.foldl (fun n c => n * 10 + (c.toNat - '0'.toNat)) 0

/-- Zero-pad a decimal string on the left to width `w`. -/
def zeroPad (w : Nat) (s : String) : String :=
  String.mk (List.replicate (w - s.length) '0') ++ s

/-- `strftime("%Y-%m-%d")`. -/
def formatDate (d : PyDate) : String :=
  zeroPad 4 (toString d.year.toNat) ++ "-" ++ zeroPad 2 (toString d.month) ++
    "-" ++ zeroPad 2 (toString d.day)

/-- The Python regex `\s` restricted to ASCII: tab, newline, vertical
tab, form feed, carriage return (code points 9-13) and the space. -/
def pyIsSpace (c : Char) : Bool :=
  (9 ≤ c.toNat && c.toNat ≤ 13) || c = ' '

/-- The day group of CPython's `%d` pattern
`3[01]|[12]\d|0[1-9]|[1-9]|\s[1-9]` (followed in the format by the end
of input, so a partial match of the group fails): one or two digits
with value 1..31, or a whitespace character followed by a nonzero
digit — `strptime` accepts a space-padded day. -/
def parseDayGroup (ds : List Char) : Option Nat :=
  if ds.all Char.isDigit ∧ 1 ≤ ds.length ∧ ds.length ≤ 2 ∧
      1 ≤ digitsToNat ds ∧ digitsToNat ds ≤ 31 then
    some (digitsToNat ds)
  else
    match ds with
    | [w, c] =>
      if pyIsSpace w ∧ c.isDigit ∧ c ≠ '0' then some (digitsToNat [c])
      else none
    | _ => none

/-- Models `datetime.strptime(s, "%Y-%m-%d")` on ASCII inputs, per
CPython's `_strptime` patterns: the year is exactly four digits
(`%Y` is `\d\d\d\d`), the month one or two digits with value 1..12
(`1[0-2]|0[1-9]|[1-9]`, followed in the format by a literal dash, so a
partial match of the group fails), the day as in `parseDayGroup`
(which also admits a whitespace-padded single digit); `datetime` then
requires the year at least 1 and the day in range for the month.
`none` is the `ValueError` Python raises on anything else. -/
def parseDate (s : String) : Option PyDate :=
  match splitOnChar '-' s.toList with
  | [ys, ms, ds] =>
    if ys.all Char.isDigit ∧ ys.length = 4 ∧
        ms.all Char.isDigit ∧ 1 ≤ ms.length ∧ ms.length ≤ 2 then
      match parseDayGroup ds with
      | some d =>
        let y : Int := (digitsToNat ys : Nat)
        let m := digitsToNat ms
        if 1 ≤ y ∧ 1 ≤ m ∧ m ≤ 12 ∧ d ≤ daysInMonth y m then
          some ⟨y, m, d⟩
        else none
      | none => none
    else none
  | _ => none

/-- `strptime("%Y-%m-%d")` fidelity at the edge cases: a three-digit
year is rejected (`%Y` requires four digits), a space-padded day is
accepted (the `\s[1-9]` alternative of `%d`), single-digit months
parse, and out-of-range or malformed dates are rejected. -/
theorem parseDate_edge_cases :
    parseDate "2025-01-01" = some ⟨2025, 1, 1⟩ ∧
    parseDate "999-01-01" = none ∧
    parseDate "2025-01- 1" = some ⟨2025, 1, 1⟩ ∧
    parseDate "2025-1-5" = some ⟨2025, 1, 5⟩ ∧
    parseDate "2025-02-30" = none ∧
    parseDate "2025-13-01" = none ∧
    parseDate "0000-01-01" = none ∧
    parseDate "garbage" = none := by
  exact ⟨rfl, rfl, rfl, rfl, rfl, rfl, rfl, rfl⟩

/-- Python truthiness of an optional string CLI argument. -/
def pyTruthy : Option String → Bool
  | none => false
  | some s => !(s == "")

inductive ConfigError where
  /-- the print-and-`sys.exit(1)` branch of `_calculate_date_range` -/
  | underspecified
  /-- the `ValueError` raised by `strptime` on a malformed date -/
  | badDateFormat
deriving DecidableEq, Repr

/-- The branching of `_calculate_date_range` that picks
`calculated_start_date` / `calculated_end_date` (lines 63-92): a
truthy preset wins (an unrecognized one leaves both dates `None`),
otherwise a truthy explicit pair is parsed (`ValueError` on a bad
date), otherwise both stay `None`. -/
def calc_dates (start_date_str end_date_str date_range_preset : Option String)
    (today : PyDate) : Except ConfigError (Option (PyDate × PyDate)) :=
  if pyTruthy date_range_preset then
    .ok (presetRange (date_range_preset.getD "") today)
  else if pyTruthy start_date_str && pyTruthy end_date_str then
    match parseDate (start_date_str.getD ""), parseDate (end_date_str.getD "") with
    | some s, some e => .ok (some (s, e))
    | _, _ => .error .badDateFormat
  else
    .ok none

/-- `_calculate_date_range(start_date_str, end_date_str, date_range_preset)`
(conversion_reports.py lines 45-101), with `datetime.now()` injected as
`today`. -/
def calculate_date_range (start_date_str end_date_str date_range_preset : Option String)
    (today : PyDate) : Except ConfigError (String × String) :=
  match calc_dates start_date_str end_date_str date_range_preset today with
  | .error err => .error err
  | .ok none => .error .underspecified
  | .ok (some (s, e)) => .ok (formatDate s, formatDate e)

/-- Exit behavior of `main` (conversion_reports.py lines 375-399) with
respect to date-range resolution on the "performance" path: the
`sys.exit(1)` inside `_calculate_date_range` and the `except ValueError`
handler in `main` both end the command with exit code 1.  `none` means
the command proceeds past date-range resolution. -/
def main_date_range_exit (s e p : Option String) (today : PyDate) : Option Nat :=
  match calculate_date_range s e p today with
  | .error _ => some 1
  | .ok _ => none

theorem presetRange_eq_none {p : String} (h : recognizedPreset p = false)
    (t : PyDate) : presetRange p t = none := by
  have h7 : p ≠ "LAST_7_DAYS" := by intro hc; subst hc; simp [recognizedPreset] at h
  have h10 : p ≠ "LAST_10_DAYS" := by intro hc; subst hc; simp [recognizedPreset] at h
  have h30 : p ≠ "LAST_30_DAYS" := by intro hc; subst hc; simp [recognizedPreset] at h
  have h32 : p ≠ "LAST_32_DAYS" := by intro hc; subst hc; simp [recognizedPreset] at h
  have hm : p ≠ "LAST_MONTH" := by intro hc; subst hc; simp [recognizedPreset] at h
  have h6 : p ≠ "LAST_6_MONTHS" := by intro hc; subst hc; simp [recognizedPreset] at h
  have hy : p ≠ "LAST_YEAR" := by intro hc; subst hc; simp [recognizedPreset] at h
  unfold presetRange
  rw [if_neg h7, if_neg h10, if_neg h30, if_neg h32, if_neg hm, if_neg h6, if_neg hy]

/-- An explicit start/end date pair is supplied (both truthy). -/
def PairSupplied (s e : Option String) : Prop :=
  pyTruthy s = true ∧ pyTruthy e = true

instance (s e : Option String) : Decidable (PairSupplied s e) := by
  unfold PairSupplied; infer_instance

/-- A truthy, recognized preset name is supplied. -/
def RecognizedPresetSupplied (p : Option String) : Prop :=
  pyTruthy p = true ∧ recognizedPreset (p.getD "") = true

instance (p : Option String) : Decidable (RecognizedPresetSupplied p) := by
  unfold RecognizedPresetSupplied; infer_instance

/-- C3 (amended): date-range resolution fails — and the command exits
with code 1 — whenever neither an explicit start/end pair nor a
recognized preset is supplied, or whenever, in the absence of a
recognized preset, an explicit pair is supplied and one of its dates
fails to parse as `YYYY-MM-DD`.  (The unamended claim is refuted by
`c3_counterexample`: a recognized preset overrides unparsable explicit
dates, so resolution then succeeds.) -/
theorem c3_date_range_failure (s e p : Option String) (today : PyDate)
    (h : (¬ RecognizedPresetSupplied p ∧ ¬ PairSupplied s e) ∨
         (¬ RecognizedPresetSupplied p ∧ PairSupplied s e ∧
           (parseDate (s.getD "") = none ∨ parseDate (e.getD "") = none))) :
    (∃ err, calculate_date_range s e p today = .error err) ∧
    main_date_range_exit s e p today = some 1 := by
  have hnrp : ¬ RecognizedPresetSupplied p := by
    rcases h with ⟨h1, _⟩ | ⟨h1, _, _⟩ <;> exact h1
  have hdates : calc_dates s e p today = .error .badDateFormat ∨
      calc_dates s e p today = .ok none := by
    unfold calc_dates
    by_cases hp : pyTruthy p = true
    · have hnr : recognizedPreset (p.getD "") = false := by
        cases hb : recognizedPreset (p.getD "")
        · rfl
        · exact absurd ⟨hp, hb⟩ hnrp
      rw [if_pos hp, presetRange_eq_none hnr]
      right; rfl
    · rw [if_neg hp]
      rcases h with ⟨_, hnp⟩ | ⟨_, hpair, hbad⟩
      · have hne : ¬ ((pyTruthy s && pyTruthy e) = true) := by
          rw [Bool.and_eq_true]; intro hc; exact hnp ⟨hc.1, hc.2⟩
        rw [if_neg hne]; right; rfl
      · have hand : (pyTruthy s && pyTruthy e) = true := by
          rw [Bool.and_eq_true]; exact ⟨hpair.1, hpair.2⟩
        rw [if_pos hand]
        left
        rcases hbad with hb | hb
        · rw [hb]
        · rw [hb]
          cases parseDate (s.getD "") <;> rfl
  have herr : ∃ err, calculate_date_range s e p today = .error err := by
    rcases hdates with hd | hd
    · exact ⟨.badDateFormat, by unfold calculate_date_range; rw [hd]⟩
    · exact ⟨.underspecified, by unfold calculate_date_range; rw [hd]⟩
  rcases herr with ⟨err, herr2⟩
  refine ⟨⟨err, herr2⟩, ?_⟩
  unfold main_date_range_exit
  rw [herr2]

theorem c3_date_range_failure_witness :
    (∃ err, calculate_date_range none none none ⟨2025, 10, 15⟩ = .error err) ∧
    main_date_range_exit none none none ⟨2025, 10, 15⟩ = some 1 :=
  c3_date_range_failure none none none ⟨2025, 10, 15⟩
    (Or.inl ⟨by decide, by decide⟩)

/-- C3 counterexample: the start date "garbage" fails to parse as
`YYYY-MM-DD`, yet resolution succeeds because the recognized preset
`LAST_7_DAYS` takes precedence: the claim's "fails whenever an explicit
date string fails to parse" is false as stated. -/
theorem c3_counterexample :
    parseDate "garbage" = none ∧
    pyTruthy (some "garbage") = true ∧
    calculate_date_range (some "garbage") (some "2025-01-01") (some "LAST_7_DAYS")
      ⟨2025, 10, 15⟩ = .ok ("2025-10-08", "2025-10-15") :=
  ⟨rfl, rfl, rfl⟩

/-- C4: every supported preset, evaluated against an injected valid
`today`, yields `start <= end` and the documented offset: the
`LAST_k_DAYS`-style presets end at `today` and start `k` calendar days
earlier (7/10/30/32, 180 for `LAST_6_MONTHS`, 365 for `LAST_YEAR`), and
`LAST_MONTH` spans exactly the full previous calendar month regardless
of the current day. -/
theorem c4_date_presets (today : PyDate) (h : ValidDate today) :
    (presetRange "LAST_7_DAYS" today = some (subDays today 7, today) ∧
      dateLE (subDays today 7) today) ∧
    (presetRange "LAST_10_DAYS" today = some (subDays today 10, today) ∧
      dateLE (subDays today 10) today) ∧
    (presetRange "LAST_30_DAYS" today = some (subDays today 30, today) ∧
      dateLE (subDays today 30) today) ∧
    (presetRange "LAST_32_DAYS" today = some (subDays today 32, today) ∧
      dateLE (subDays today 32) today) ∧
    (presetRange "LAST_6_MONTHS" today = some (subDays today 180, today) ∧
      dateLE (subDays today 180) today) ∧
    (presetRange "LAST_YEAR" today = some (subDays today 365, today) ∧
      dateLE (subDays today 365) today) ∧
    (∃ s e, presetRange "LAST_MONTH" today = some (s, e) ∧ dateLE s e ∧
      s.year = e.year ∧ s.month = e.month ∧ s.day = 1 ∧
      e.day = daysInMonth e.year e.month ∧
      (today.month = 1 → e.year = today.year - 1 ∧ e.month = 12) ∧
      (1 < today.month → e.year = today.year ∧ e.month = today.month - 1)) := by
  refine ⟨⟨rfl, subDays_dateLE _ _⟩, ⟨rfl, subDays_dateLE _ _⟩,
    ⟨rfl, subDays_dateLE _ _⟩, ⟨rfl, subDays_dateLE _ _⟩,
    ⟨rfl, subDays_dateLE _ _⟩, ⟨rfl, subDays_dateLE _ _⟩, ?_⟩
  obtain ⟨y, m, dday⟩ := today
  have hm1 : 1 ≤ m := h.2.1
  have hiter : subDays (firstOfMonth ⟨y, m, dday⟩) 1 = prevDay ⟨y, m, 1⟩ := by
    unfold subDays firstOfMonth
    rw [Function.iterate_one]
  rcases eq_or_lt_of_le hm1 with hm | hm
  · have hpd : prevDay ⟨y, m, 1⟩ = ⟨y - 1, 12, 31⟩ := by
      unfold prevDay
      rw [if_neg (by simp), if_neg (by simp; omega)]
    refine ⟨⟨y - 1, 12, 1⟩, ⟨y - 1, 12, 31⟩, ?_, ?_, rfl, rfl, rfl, ?_, ?_, ?_⟩
    · show some (firstOfMonth (subDays (firstOfMonth ⟨y, m, dday⟩) 1),
             subDays (firstOfMonth ⟨y, m, dday⟩) 1) = _
      rw [hiter, hpd]
      rfl
    · unfold dateLE
      simp
    · show (31 : Nat) = daysInMonth (y - 1) 12
      unfold daysInMonth
      norm_num
    · intro _
      exact ⟨rfl, rfl⟩
    · intro hlt
      exact absurd (show 1 < m from hlt) (by omega)
  · have hpd : prevDay ⟨y, m, 1⟩ = ⟨y, m - 1, daysInMonth y (m - 1)⟩ := by
      unfold prevDay
      rw [if_neg (by simp), if_pos (by simpa using hm)]
    refine ⟨⟨y, m - 1, 1⟩, ⟨y, m - 1, daysInMonth y (m - 1)⟩, ?_, ?_, rfl, rfl, rfl,
      rfl, ?_, ?_⟩
    · show some (firstOfMonth (subDays (firstOfMonth ⟨y, m, dday⟩) 1),
             subDays (firstOfMonth ⟨y, m, dday⟩) 1) = _
      rw [hiter, hpd]
      rfl
    · have := one_le_daysInMonth y (m - 1)
      unfold dateLE
      simp
      omega
    · intro h1
      exact absurd (show m = 1 from h1) (by omega)
    · intro _
      exact ⟨rfl, rfl⟩

theorem c4_date_presets_witness :
    ValidDate ⟨2025, 1, 15⟩ ∧
    (presetRange "LAST_MONTH" ⟨2025, 1, 15⟩ =
      some (⟨2024, 12, 1⟩, ⟨2024, 12, 31⟩)) :=
  ⟨by decide, by
    rcases c4_date_presets ⟨2025, 1, 15⟩ (by decide) with
      ⟨_, _, _, _, _, _, s, e, hse, _⟩
    rw [hse]
    rw [show presetRange "LAST_MONTH" ⟨2025, 1, 15⟩ =
      some (⟨2024, 12, 1⟩, ⟨2024, 12, 31⟩) from rfl] at hse
    injection hse with h1
    rw [← h1]⟩

/-!
## Query builder

Shallow embedding of the query-construction section of
`get_conversion_performance_report`
(`api_examples/conversion_reports.py`, lines 234-302).
`all_select_fields = list(set(select_fields + metric_fields))` iterates
a Python set, whose order is unspecified; it is therefore passed as an
arbitrary `allSelect` list constrained by `IsPySetList`.
-/

/-- `out` is a possible value of Python `list(set(l))`: duplicate-free
with exactly the members of `l`, in some unspecified order. -/
def IsPySetList (l out : List String) : Prop :=
  out.Nodup ∧ ∀ x, x ∈ out ↔ x ∈ l

/-- `f.startswith(p)`. -/
def pyStartsWith (f p : String) : Bool := p.toList.isPrefixOf f.toList

/-- The resource-switch condition of lines 238-240. -/
def forcedCustomerScope (metrics filters : List String) : Bool :=
  metrics.contains "segments.conversion_action_name" ||
    filters.any (fun f => pyStartsWith f "conversion_action_name=")

/-- `from_resource` after lines 235-244. -/
def from_resource (metrics filters : List String) : String :=
  if forcedCustomerScope metrics filters then "customer" else "campaign"

/-- `select_fields` after lines 234-244. -/
def select_fields (metrics filters : List String) : List String :=
  if forcedCustomerScope metrics filters then
    ["segments.date", "segments.conversion_action_name"]
  else
    ["segments.date", "campaign.id", "campaign.name"]

/-- One arm of the metric-mapping chain of lines 248-260. -/
def metricField (m : String) : Option String :=
  if m = "conversions" then some "metrics.conversions"
  else if m = "all_conversions" then some "metrics.all_conversions"
  else if m = "conversions_value" then some "metrics.conversions_value"
  else if m = "all_conversions_value" then some "metrics.all_conversions_value"
  else if m = "clicks" then some "metrics.clicks"
  else if m = "impressions" then some "metrics.impressions"
  else none

/-- `metric_fields` after the loop of lines 246-260. -/
def metric_fields (metrics : List String) : List String :=
  metrics.filterMap metricField

/-- `f.split('=')[1]`: the text between the first and the second `=`
(or to the end). -/
def eqValue (f : String) : String :=
  String.mk ((splitOnChar '=' f.toList).getD 1 [])

/-- Models `str(float(v))` for strings of decimal digits denoting
integers exactly representable as floats (the documented shape of
`min_conversions=` values): leading zeros collapse and `.0` is
appended, e.g. `float("5")` prints as `5.0`. -/
def floatDigitsStr (v : String) : String :=
  String.mk (if (v.toList.dropWhile (fun c => c = '0')).isEmpty then ['0']
    else v.toList.dropWhile (fun c => c = '0')) ++ ".0"

/-- One filter token's contribution to `where_clauses` (lines 268-278);
`none` for the silently dropped unrecognized tokens. -/
def filterClause (f : String) : Option String :=
  if pyStartsWith f "conversion_action_name=" then
    some ("segments.conversion_action_name = '" ++ eqValue f ++ "'")
  else if pyStartsWith f "min_conversions=" then
    some ("metrics.conversions > " ++ floatDigitsStr (eqValue f))
  else if pyStartsWith f "campaign_id=" then
    some ("campaign.id = " ++ eqValue f)
  else if pyStartsWith f "campaign_name_like=" then
    some ("campaign.name LIKE '%" ++ eqValue f ++ "%'")
  else none

/-- `where_clauses` (lines 266-278): the date clause followed by the
recognized filters' clauses. -/
def where_clauses (startStr endStr : String) (filters : List String) : List String :=
  ("segments.date BETWEEN '" ++ startStr ++ "' AND '" ++ endStr ++ "'") ::
    filters.filterMap filterClause

def metricNames : List String :=
  ["conversions", "all_conversions", "conversions_value",
   "all_conversions_value", "clicks", "impressions"]

/-- `order_by_field` (lines 283-296). -/
def order_by_field (o : String) : String :=
  if metricNames.contains o then "metrics." ++ o else o

/-- The ORDER BY part (lines 283-297); `if order_by:` is a Python
truthiness test, so an empty string adds nothing. -/
def order_part (order_by : Option String) : List String :=
  match order_by with
  | some o => if o = "" then [] else ["ORDER BY " ++ order_by_field o ++ " DESC"]
  | none => []

/-- The LIMIT part (lines 299-300); `if limit:` is a Python truthiness
test, so any nonzero integer — negative ones included — appends a
clause. -/
def limit_part (limit : Option Int) : List String :=
  match limit with
  | some n => if n = 0 then [] else ["LIMIT " ++ toString n]
  | none => []

/-- The `query_parts` list (lines 264-302). -/
def query_parts (allSelect : List String) (resource startStr endStr : String)
    (filters : List String) (order_by : Option String) (limit : Option Int) :
    List String :=
  ["SELECT " ++ pyJoin ", " allSelect ++ " FROM " ++ resource]
  ++ (if (where_clauses startStr endStr filters).isEmpty then []
      else ["WHERE " ++ pyJoin " AND " (where_clauses startStr endStr filters)])
  ++ order_part order_by
  ++ limit_part limit

/-- `query = " ".join(query_parts)` (line 302). -/
def performance_query (allSelect : List String) (metrics filters : List String)
    (startStr endStr : String) (order_by : Option String) (limit : Option Int) :
    String :=
  pyJoin " "
    (query_parts allSelect (from_resource metrics filters) startStr endStr
      filters order_by limit)

theorem query_parts_eq (allSelect : List String) (res s e : String)
    (filters : List String) (ob : Option String) (lim : Option Int) :
    query_parts allSelect res s e filters ob lim =
      ["SELECT " ++ pyJoin ", " allSelect ++ " FROM " ++ res,
       "WHERE " ++ pyJoin " AND " (where_clauses s e filters)]
      ++ order_part ob ++ limit_part lim := by
  unfold query_parts
  rw [if_neg (by simp [where_clauses])]
  rfl

/-- One streamed response row, with every scalar already rendered by
`str` (the pipeline only ever measures or prints these strings). -/
structure GoogleAdsRow where
  segments_date : String
  segments_conversion_action_name : String
  campaign_id : String
  campaign_name : String
  metrics_conversions : String
  metrics_all_conversions : String
  metrics_conversions_value : String
  metrics_all_conversions_value : String
  metrics_clicks : String
  metrics_impressions : String
deriving Repr

/-- The field-path → (column label, extractor) chain of the row
flattening (conversion_reports.py lines 311-337), in source order. -/
def rowSchema : List (String × String × (GoogleAdsRow → String)) :=
  [("segments.date", "Date", fun r => r.segments_date),
   ("segments.conversion_action_name", "Conversion Action Name",
     fun r => r.segments_conversion_action_name),
   ("campaign.id", "Campaign ID", fun r => r.campaign_id),
   ("campaign.name", "Campaign Name", fun r => r.campaign_name),
   ("metrics.conversions", "Conversions", fun r => r.metrics_conversions),
   ("metrics.all_conversions", "All Conversions", fun r => r.metrics_all_conversions),
   ("metrics.conversions_value", "Conversions Value",
     fun r => r.metrics_conversions_value),
   ("metrics.all_conversions_value", "All Conversions Value",
     fun r => r.metrics_all_conversions_value),
   ("metrics.clicks", "Clicks", fun r => r.metrics_clicks),
   ("metrics.impressions", "Impressions", fun r => r.metrics_impressions)]

/-- `row_data` for one response row: the insertion-ordered dict built by
the if-chain of lines 311-337, guarded by membership in
`all_select_fields`. -/
def flattenRow (allSelect : List String) (r : GoogleAdsRow) :
    List (String × String) :=
  (rowSchema.filter (fun t => allSelect.contains t.1)).map
    (fun t => (t.2.1, t.2.2 r))

/-- The column labels every emitted row carries, in emission order. -/
def rowHeaders (allSelect : List String) : List String :=
  (rowSchema.filter (fun t => allSelect.contains t.1)).map (fun t => t.2.1)

/-- The display name (column label) of a field path. -/
def displayName (f : String) : String :=
  match rowSchema.find? (fun t => t.1 == f) with
  | some t => t.2.1
  | none => f

theorem flattenRow_map_fst (allSelect : List String) (r : GoogleAdsRow) :
    (flattenRow allSelect r).map Prod.fst = rowHeaders allSelect := by
  unfold flattenRow rowHeaders
  rw [List.map_map]
  rfl

theorem contains_eq_of_mem_iff {l out : List String}
    (h : ∀ x, x ∈ out ↔ x ∈ l) (x : String) :
    out.contains x = l.contains x := by
  show List.elem x out = List.elem x l
  by_cases hx : x ∈ out
  · rw [List.elem_iff.mpr hx, List.elem_iff.mpr ((h x).mp hx)]
  · rw [Bool.eq_false_iff.mpr (fun hc => hx (List.elem_iff.mp hc)),
      Bool.eq_false_iff.mpr (fun hc => (fun hm => hx ((h x).mpr hm)) (List.elem_iff.mp hc))]

theorem rowHeaders_congr {l out : List String} (h : IsPySetList l out) :
    rowHeaders out = rowHeaders l := by
  unfold rowHeaders
  congr 1
  apply List.filter_congr
  intro t _
  rw [contains_eq_of_mem_iff h.2]

/-- C1 counterexample: with `metrics = ["impressions", "clicks"]` and no
filters the input-ordered field list has Impressions before Clicks, but
the emitted column headers follow the fixed if-chain order, which puts
Clicks first — so the headers do not equal the (claimed
input-order-preserving) field list's display names, for any set order. -/
theorem c1_counterexample :
    rowHeaders (select_fields ["impressions", "clicks"] [] ++
        metric_fields ["impressions", "clicks"]) =
      ["Date", "Campaign ID", "Campaign Name", "Clicks", "Impressions"] ∧
    (select_fields ["impressions", "clicks"] [] ++
        metric_fields ["impressions", "clicks"]).map displayName =
      ["Date", "Campaign ID", "Campaign Name", "Impressions", "Clicks"] ∧
    rowHeaders (select_fields ["impressions", "clicks"] [] ++
        metric_fields ["impressions", "clicks"]) ≠
      (select_fields ["impressions", "clicks"] [] ++
        metric_fields ["impressions", "clicks"]).map displayName := by
  refine ⟨rfl, rfl, ?_⟩
  decide

/-- C1 (amended): the built field list is deduplicated with exactly the
requested select and metric fields as members, but in an unspecified
order (`list(set(...))` does not preserve input order; in the forced
resource-switch case the forced segment field is added after
`segments.date`, not prepended); the column headers of every emitted
row are the present fields' display names in the fixed if-chain order
(Date, Conversion Action Name, Campaign ID, Campaign Name, Conversions,
All Conversions, Conversions Value, All Conversions Value, Clicks,
Impressions), identically for every row and independently of the set
order. -/
theorem c1_field_list_and_headers (metrics filters : List String)
    (out : List String)
    (h : IsPySetList (select_fields metrics filters ++ metric_fields metrics) out) :
    out.Nodup ∧
    (∀ x, x ∈ out ↔ x ∈ select_fields metrics filters ++ metric_fields metrics) ∧
    (∀ r, (flattenRow out r).map Prod.fst = rowHeaders out) ∧
    rowHeaders out =
      rowHeaders (select_fields metrics filters ++ metric_fields metrics) :=
  ⟨h.1, h.2, fun r => flattenRow_map_fst out r, rowHeaders_congr h⟩

theorem c1_field_list_and_headers_witness :
    (["metrics.clicks", "segments.date", "campaign.id", "campaign.name"] :
        List String).Nodup ∧
    rowHeaders ["metrics.clicks", "segments.date", "campaign.id", "campaign.name"] =
      rowHeaders (select_fields ["clicks"] [] ++ metric_fields ["clicks"]) := by
  have h : IsPySetList (select_fields ["clicks"] [] ++ metric_fields ["clicks"])
      ["metrics.clicks", "segments.date", "campaign.id", "campaign.name"] := by
    constructor
    · decide
    · intro x
      show x ∈ _ ↔ x ∈ (["segments.date", "campaign.id", "campaign.name",
        "metrics.clicks"] : List String)
      simp only [List.mem_cons, List.not_mem_nil, or_false]
      tauto
  exact ⟨(c1_field_list_and_headers ["clicks"] [] _ h).1,
    (c1_field_list_and_headers ["clicks"] [] _ h).2.2.2⟩

theorem string_ext_toList {s t : String} (h : s.toList = t.toList) : s = t := by
  cases s
  cases t
  simp only [String.toList] at h
  rw [h]

theorem filterMap_filter_isSome {α β : Type} (f : α → Option β) (l : List α) :
    l.filterMap f = (l.filter (fun a => (f a).isSome)).filterMap f := by
  induction l with
  | nil => rfl
  | cons a t ih =>
    cases hfa : f a
    · rw [List.filterMap_cons, hfa, List.filter_cons]
      simp only [hfa, Option.isSome_none, Bool.false_eq_true, if_false]
      exact ih
    · rw [List.filterMap_cons, hfa, List.filter_cons]
      simp only [hfa, Option.isSome_some, if_true, List.filterMap_cons]
      rw [ih]

theorem c6_query_shape (out : List String) :
    performance_query out ["conversions"]
        ["min_conversions=5", "unrecognized_token=x"]
        "2025-01-01" "2025-01-31" none none =
      "SELECT " ++ pyJoin ", " out ++ " FROM " ++ "campaign" ++ " " ++
        "WHERE segments.date BETWEEN '2025-01-01' AND '2025-01-31' AND metrics.conversions > 5.0" := by
  unfold performance_query
  rw [query_parts_eq]
  rfl

theorem not_strContains_head (s pat : String) (c : Char) (pt : List Char)
    (hpat : pat.toList = c :: pt) (h : s.toList.count c = 0) :
    ¬ StrContains s pat := by
  intro hc
  have h1 := strContains_countOcc hc
  rw [hpat] at h1
  have h2 := countOcc_le_count_head c pt s.toList
  omega

/-- C6: recognized filter tokens become clauses and unrecognized ones
are silently dropped: with filters
`["min_conversions=5", "unrecognized_token=x"]` (and the default
`conversions` metric), the built query contains the
`metrics.conversions > 5.0` threshold clause and no trace of the
unrecognized token (neither its key nor its value occurs), for every
set order of the field list; and in general the `where_clauses` list is
unchanged when the filters whose key prefix is unrecognized (those four
shapes apart) are removed. -/
theorem c6_unrecognized_filter_dropped (out : List String)
    (h : IsPySetList (select_fields ["conversions"]
          ["min_conversions=5", "unrecognized_token=x"] ++
        metric_fields ["conversions"]) out) :
    StrContains (performance_query out ["conversions"]
        ["min_conversions=5", "unrecognized_token=x"]
        "2025-01-01" "2025-01-31" none none) "metrics.conversions > 5.0" ∧
    ¬ StrContains (performance_query out ["conversions"]
        ["min_conversions=5", "unrecognized_token=x"]
        "2025-01-01" "2025-01-31" none none) "unrecognized_token" ∧
    ¬ StrContains (performance_query out ["conversions"]
        ["min_conversions=5", "unrecognized_token=x"]
        "2025-01-01" "2025-01-31" none none) "x" ∧
    (∀ startStr endStr (filters : List String),
      where_clauses startStr endStr filters =
        where_clauses startStr endStr
          (filters.filter (fun f => (filterClause f).isSome))) := by
  have hl : select_fields ["conversions"]
      ["min_conversions=5", "unrecognized_token=x"] ++
      metric_fields ["conversions"] =
      ["segments.date", "campaign.id", "campaign.name", "metrics.conversions"] := rfl
  have hfields : ∀ f ∈ out, f.toList.count 'u' = 0 ∧ f.toList.count 'x' = 0 := by
    intro f hf
    have hm := (h.2 f).mp hf
    rw [hl] at hm
    simp only [List.mem_cons, List.not_mem_nil, or_false] at hm
    rcases hm with rfl | rfl | rfl | rfl <;> exact ⟨by decide, by decide⟩
  have hJu : (pyJoin ", " out).toList.count 'u' = 0 :=
    count_pyJoin_eq_zero 'u' ", " out (by decide) (fun f hf => (hfields f hf).1)
  have hJx : (pyJoin ", " out).toList.count 'x' = 0 :=
    count_pyJoin_eq_zero 'x' ", " out (by decide) (fun f hf => (hfields f hf).2)
  have hqu : (performance_query out ["conversions"]
      ["min_conversions=5", "unrecognized_token=x"]
      "2025-01-01" "2025-01-31" none none).toList.count 'u' = 0 := by
    rw [c6_query_shape out]
    simp only [toList_append, List.count_append]
    rw [hJu]
    decide
  have hqx : (performance_query out ["conversions"]
      ["min_conversions=5", "unrecognized_token=x"]
      "2025-01-01" "2025-01-31" none none).toList.count 'x' = 0 := by
    rw [c6_query_shape out]
    simp only [toList_append, List.count_append]
    rw [hJx]
    decide
  refine ⟨?_, ?_, ?_, ?_⟩
  · refine ⟨"SELECT " ++ pyJoin ", " out ++
      " FROM campaign WHERE segments.date BETWEEN '2025-01-01' AND '2025-01-31' AND ",
      "", ?_⟩
    apply string_ext_toList
    rw [c6_query_shape out]
    simp only [toList_append, List.append_assoc, List.append_nil]
    congr 1
  · exact not_strContains_head _ _ 'u' _ rfl hqu
  · exact not_strContains_head _ _ 'x' _ rfl hqx
  · intro s e fs
    unfold where_clauses
    rw [← filterMap_filter_isSome]

theorem c6_unrecognized_filter_dropped_witness :
    StrContains (performance_query
        ["segments.date", "campaign.id", "campaign.name", "metrics.conversions"]
        ["conversions"] ["min_conversions=5", "unrecognized_token=x"]
        "2025-01-01" "2025-01-31" none none) "metrics.conversions > 5.0" ∧
    ¬ StrContains (performance_query
        ["segments.date", "campaign.id", "campaign.name", "metrics.conversions"]
        ["conversions"] ["min_conversions=5", "unrecognized_token=x"]
        "2025-01-01" "2025-01-31" none none) "unrecognized_token" := by
  have h := c6_unrecognized_filter_dropped
    ["segments.date", "campaign.id", "campaign.name", "metrics.conversions"]
    ⟨by decide, fun x => by rfl⟩
  exact ⟨h.1, h.2.1⟩

theorem digitChar_lt_ne_F : ∀ n < 16, Nat.digitChar n ≠ 'F' := by decide

theorem toDigitsCore_count_F (fuel n : Nat) (ds : List Char)
    (hds : ds.count 'F' = 0) :
    (Nat.toDigitsCore 10 fuel n ds).count 'F' = 0 := by
  induction fuel generalizing n ds with
  | zero => simpa [Nat.toDigitsCore] using hds
  | succ fuel ih =>
    have hcons : ((n % 10).digitChar :: ds).count 'F' = 0 := by
      rw [List.count_cons_of_ne ((digitChar_lt_ne_F (n % 10) (by omega)).symm)]
      exact hds
    show (if n / 10 = 0 then (n % 10).digitChar :: ds
        else Nat.toDigitsCore 10 fuel (n / 10) ((n % 10).digitChar :: ds)).count 'F' = 0
    split_ifs
    · exact hcons
    · exact ih _ _ hcons

theorem count_F_natRepr (n : Nat) : (Nat.repr n).toList.count 'F' = 0 := by
  show (Nat.toDigits 10 n).count 'F' = 0
  exact toDigitsCore_count_F _ _ _ rfl

theorem count_F_intToString (n : Int) : (toString n).toList.count 'F' = 0 := by
  show (Int.repr n).toList.count 'F' = 0
  cases n with
  | ofNat m => exact count_F_natRepr m
  | negSucc m =>
    show (("-" : String) ++ Nat.repr (m + 1)).toList.count 'F' = 0
    rw [toList_append, List.count_append, count_F_natRepr]
    decide

theorem count_F_floatDigitsStr (v : String) (h : v.toList.count 'F' = 0) :
    (floatDigitsStr v).toList.count 'F' = 0 := by
  have hsub : (v.toList.dropWhile (fun c => c = '0')).count 'F' ≤
      v.toList.count 'F' := (List.dropWhile_sublist _).count_le 'F'
  unfold floatDigitsStr
  rw [toList_append, List.count_append]
  have h1 : (String.mk (if (v.toList.dropWhile (fun c => c = '0')).isEmpty then ['0']
      else v.toList.dropWhile (fun c => c = '0'))).toList.count 'F' = 0 := by
    split_ifs with he
    · decide
    · show (v.toList.dropWhile (fun c => c = '0')).count 'F' = 0
      omega
  rw [h1]
  decide

theorem count_F_filterClause (f cl : String) (hcl : filterClause f = some cl)
    (hv : (eqValue f).toList.count 'F' = 0) : cl.toList.count 'F' = 0 := by
  unfold filterClause at hcl
  split_ifs at hcl
  all_goals first
    | exact Option.noConfusion hcl
    | (injection hcl with hcl; subst hcl;
       simp only [toList_append, List.count_append];
       rw [hv]; decide)
    | (injection hcl with hcl; subst hcl;
       simp only [toList_append, List.count_append];
       rw [count_F_floatDigitsStr _ hv]; decide)

theorem count_F_where_part (s e : String) (filters : List String)
    (hs : s.toList.count 'F' = 0) (he : e.toList.count 'F' = 0)
    (hf : ∀ f ∈ filters, (eqValue f).toList.count 'F' = 0) :
    ("WHERE " ++ pyJoin " AND " (where_clauses s e filters)).toList.count 'F' = 0 := by
  rw [toList_append, List.count_append]
  have h1 : ∀ x ∈ where_clauses s e filters, x.toList.count 'F' = 0 := by
    intro x hx
    unfold where_clauses at hx
    rcases List.mem_cons.mp hx with rfl | hx2
    · simp only [toList_append, List.count_append]
      rw [hs, he]
      decide
    · rcases List.mem_filterMap.mp hx2 with ⟨f, hfin, hcl⟩
      exact count_F_filterClause f x hcl (hf f hfin)
  rw [count_pyJoin_eq_zero 'F' " AND " _ (by decide) h1]
  decide

theorem count_F_order_part (ob : Option String)
    (ho : ∀ o, ob = some o → o.toList.count 'F' = 0) :
    ∀ x ∈ order_part ob, x.toList.count 'F' = 0 := by
  intro x hx
  cases ob with
  | none => exact absurd hx (by simp [order_part])
  | some o =>
    rw [show order_part (some o) = if o = "" then []
        else ["ORDER BY " ++ order_by_field o ++ " DESC"] from rfl] at hx
    split_ifs at hx
    · exact absurd hx (by simp)
    · rcases List.mem_singleton.mp hx with rfl
      have ho' := ho o rfl
      unfold order_by_field
      split_ifs
      · simp only [toList_append, List.count_append]
        rw [ho']
        decide
      · simp only [toList_append, List.count_append]
        rw [ho']
        decide

theorem count_F_limit_part (lim : Option Int) :
    ∀ x ∈ limit_part lim, x.toList.count 'F' = 0 := by
  intro x hx
  cases lim with
  | none => exact absurd hx (by simp [limit_part])
  | some n =>
    rw [show limit_part (some n) = if n = 0 then []
        else ["LIMIT " ++ toString n] from rfl] at hx
    split_ifs at hx
    · exact absurd hx (by simp)
    · rcases List.mem_singleton.mp hx with rfl
      simp only [toList_append, List.count_append]
      rw [count_F_intToString]
      decide

theorem metricField_mem {m f : String} (h : metricField m = some f) :
    f ∈ (["metrics.conversions", "metrics.all_conversions",
      "metrics.conversions_value", "metrics.all_conversions_value",
      "metrics.clicks", "metrics.impressions"] : List String) := by
  unfold metricField at h
  split_ifs at h
  all_goals first
    | exact Option.noConfusion h
    | (injection h with h; subst h; decide)

theorem select_fields_mem {metrics filters : List String} {f : String}
    (h : f ∈ select_fields metrics filters) :
    f ∈ (["segments.date", "segments.conversion_action_name", "campaign.id",
      "campaign.name"] : List String) := by
  unfold select_fields at h
  split_ifs at h <;> fin_cases h <;> decide

theorem count_F_select_field {metrics filters : List String} {out : List String}
    (h : IsPySetList (select_fields metrics filters ++ metric_fields metrics) out) :
    ∀ x ∈ out, x.toList.count 'F' = 0 := by
  intro x hx
  have hm := (h.2 x).mp hx
  rcases List.mem_append.mp hm with hsel | hmet
  · have hs := select_fields_mem hsel
    fin_cases hs <;> decide
  · rcases List.mem_filterMap.mp hmet with ⟨m, _, hmf⟩
    have hf := metricField_mem hmf
    fin_cases hf <;> decide

theorem countOcc_eq_one_of (pat s : List Char) (c : Char) (pt : List Char)
    (hpat : pat = c :: pt) (A B : List Char) (hs : s = A ++ pat ++ B)
    (hA : A.count c = 0) (hB : B.count c = 0) (hpatc : pat.count c = 1) :
    countOcc pat s = 1 := by
  have h1 : 1 ≤ countOcc pat s := by
    rw [hs]
    exact countOcc_append_pat pat A B
  have h2 : countOcc pat s ≤ s.count c := by
    rw [hpat]
    exact countOcc_le_count_head c pt s
  have h3 : s.count c = 1 := by
    rw [hs, List.count_append, List.count_append, hA, hB, hpatc]
  omega

/-- C7: every built query contains exactly one `FROM` clause (the
keyword `FROM` occurs exactly once, provided the user-supplied date,
filter-value and order-by strings contain no capital `F` — the keyword
templates and field names contain none), and its target is `customer`
instead of `campaign` if and only if `segments.conversion_action_name`
appears among the requested metrics or a `conversion_action_name=`
filter is supplied. -/
theorem c7_single_from_clause (metrics filters : List String) (out : List String)
    (startStr endStr : String) (order_by : Option String) (limit : Option Int)
    (hout : IsPySetList (select_fields metrics filters ++ metric_fields metrics) out)
    (hs : startStr.toList.count 'F' = 0) (he : endStr.toList.count 'F' = 0)
    (hf : ∀ f ∈ filters, (eqValue f).toList.count 'F' = 0)
    (ho : ∀ o, order_by = some o → o.toList.count 'F' = 0) :
    countOcc "FROM".toList
      (performance_query out metrics filters startStr endStr order_by limit).toList
      = 1 ∧
    (from_resource metrics filters = "customer" ↔
      ("segments.conversion_action_name" ∈ metrics ∨
        ∃ f ∈ filters, pyStartsWith f "conversion_action_name=" = true)) := by
  constructor
  · have hq : performance_query out metrics filters startStr endStr order_by limit =
        ("SELECT " ++ pyJoin ", " out ++ " FROM " ++ from_resource metrics filters)
          ++ " " ++
          pyJoin " "
            (("WHERE " ++ pyJoin " AND " (where_clauses startStr endStr filters)) ::
              (order_part order_by ++ limit_part limit)) := by
      unfold performance_query
      rw [query_parts_eq]
      rfl
    have htail : (pyJoin " "
        (("WHERE " ++ pyJoin " AND " (where_clauses startStr endStr filters)) ::
          (order_part order_by ++ limit_part limit))).toList.count 'F' = 0 := by
      apply count_pyJoin_eq_zero 'F' " " _ (by decide)
      intro x hx
      rcases List.mem_cons.mp hx with rfl | hx2
      · exact count_F_where_part startStr endStr filters hs he hf
      · rcases List.mem_append.mp hx2 with hxo | hxl
        · exact count_F_order_part order_by ho x hxo
        · exact count_F_limit_part limit x hxl
    have hsplit : (performance_query out metrics filters startStr endStr
        order_by limit).toList =
        ("SELECT " ++ pyJoin ", " out ++ " ").toList ++ "FROM".toList ++
        (" " ++ from_resource metrics filters ++ " " ++
          pyJoin " "
            (("WHERE " ++ pyJoin " AND " (where_clauses startStr endStr filters)) ::
              (order_part order_by ++ limit_part limit))).toList := by
      rw [hq]
      simp only [toList_append, List.append_assoc]
      congr 1
    refine countOcc_eq_one_of "FROM".toList _ 'F' _ rfl _ _ hsplit ?_ ?_ (by decide)
    · simp only [toList_append, List.count_append]
      rw [count_pyJoin_eq_zero 'F' ", " out (by decide) (count_F_select_field hout)]
      decide
    · simp only [toList_append, List.count_append]
      rw [htail]
      have hres : (from_resource metrics filters).toList.count 'F' = 0 := by
        unfold from_resource
        split_ifs <;> decide
      rw [hres]
      decide
  · have hiff : from_resource metrics filters = "customer" ↔
        forcedCustomerScope metrics filters = true := by
      unfold from_resource
      split_ifs with hb
      · simp [hb]
      · constructor
        · intro hc
          exact absurd hc (by decide)
        · intro hc
          exact absurd hc hb
    rw [hiff]
    unfold forcedCustomerScope
    rw [Bool.or_eq_true, List.any_eq_true]
    constructor
    · intro hc
      rcases hc with hc | hc
      · exact Or.inl (List.elem_iff.mp hc)
      · exact Or.inr hc
    · intro hc
      rcases hc with hc | hc
      · exact Or.inl (List.elem_iff.mpr hc)
      · exact Or.inr hc

theorem c7_single_from_clause_witness :
    countOcc "FROM".toList
      (performance_query
        ["segments.date", "campaign.id", "campaign.name", "metrics.conversions"]
        ["conversions"] ["campaign_id=7"] "2025-01-01" "2025-01-31"
        (some "conversions") (some 10)).toList = 1 ∧
    (from_resource ["conversions"] ["campaign_id=7"] = "customer" ↔
      ("segments.conversion_action_name" ∈ (["conversions"] : List String) ∨
        ∃ f ∈ (["campaign_id=7"] : List String),
          pyStartsWith f "conversion_action_name=" = true)) :=
  c7_single_from_clause ["conversions"] ["campaign_id=7"]
    ["segments.date", "campaign.id", "campaign.name", "metrics.conversions"]
    "2025-01-01" "2025-01-31" (some "conversions") (some 10)
    ⟨by decide, fun x => Iff.rfl⟩ (by decide) (by decide)
    (by intro f hfm; fin_cases hfm; decide)
    (by intro o hoe; injection hoe with hoe; subst hoe; decide)

theorem string_append_assoc (a b c : String) : a ++ b ++ c = a ++ (b ++ c) := by
  apply string_ext_toList
  simp only [toList_append, List.append_assoc]

theorem pyJoin_append_singleton (sep x : String) (l : List String) (h : l ≠ []) :
    pyJoin sep (l ++ [x]) = pyJoin sep l ++ sep ++ x := by
  induction l with
  | nil => exact absurd rfl h
  | cons a t ih =>
    cases t with
    | nil => rfl
    | cons b u =>
      have h1 : pyJoin sep ((a :: b :: u) ++ [x]) =
          a ++ sep ++ pyJoin sep ((b :: u) ++ [x]) := rfl
      rw [h1, ih (by simp), pyJoin_cons_cons]
      simp only [string_append_assoc]

/-- C8 counterexample: `if limit:` is a Python truthiness test, so the
non-positive limit `-1` still appends a `LIMIT -1` clause; the claim
says no LIMIT clause appears for a non-positive limit. -/
theorem c8_counterexample :
    limit_part (some (-1)) = ["LIMIT -1"] ∧
    performance_query
        ["segments.date", "campaign.id", "campaign.name", "metrics.conversions"]
        ["conversions"] [] "2025-01-01" "2025-01-31" none (some (-1)) =
      "SELECT segments.date, campaign.id, campaign.name, metrics.conversions FROM campaign WHERE segments.date BETWEEN '2025-01-01' AND '2025-01-31' LIMIT -1" :=
  ⟨rfl, rfl⟩

/-- C8 (amended): a LIMIT clause is appended verbatim as the trailing
clause exactly when the limit argument is present and nonzero (Python
truthiness); for an absent or zero limit the query equals the one built
without a limit, none of whose parts is a LIMIT clause. -/
theorem c8_limit_clause (out : List String) (metrics filters : List String)
    (startStr endStr : String) (order_by : Option String) (limit : Option Int) :
    (∀ n, limit = some n → n ≠ 0 →
      performance_query out metrics filters startStr endStr order_by limit =
        performance_query out metrics filters startStr endStr order_by none ++
          " LIMIT " ++ toString n) ∧
    ((limit = none ∨ limit = some 0) →
      performance_query out metrics filters startStr endStr order_by limit =
        performance_query out metrics filters startStr endStr order_by none) ∧
    (∀ p ∈ query_parts out (from_resource metrics filters) startStr endStr
        filters order_by none,
      pyStartsWith p "LIMIT " = false) := by
  refine ⟨?_, ?_, ?_⟩
  · intro n hn hn0
    subst hn
    unfold performance_query
    rw [query_parts_eq, query_parts_eq]
    rw [show limit_part (some n) = ["LIMIT " ++ toString n] from by
      rw [show limit_part (some n) = if n = 0 then [] else ["LIMIT " ++ toString n]
        from rfl, if_neg hn0]]
    rw [show limit_part (none : Option Int) = [] from rfl, List.append_nil]
    rw [pyJoin_append_singleton " " ("LIMIT " ++ toString n) _ (by simp)]
    simp only [string_append_assoc]
    congr 1
  · intro hlim
    rcases hlim with rfl | rfl
    · rfl
    · rfl
  · intro p hp
    rw [query_parts_eq] at hp
    rw [show limit_part (none : Option Int) = [] from rfl, List.append_nil] at hp
    rcases List.mem_append.mp hp with hp1 | hpo
    · rcases List.mem_cons.mp hp1 with rfl | hp2
      · rfl
      · rcases List.mem_cons.mp hp2 with rfl | hp3
        · rfl
        · exact absurd hp3 (List.not_mem_nil p)
    · cases order_by with
      | none => exact absurd hpo (by simp [order_part])
      | some o =>
        rw [show order_part (some o) = if o = "" then []
            else ["ORDER BY " ++ order_by_field o ++ " DESC"] from rfl] at hpo
        split_ifs at hpo
        · exact absurd hpo (List.not_mem_nil p)
        · rcases List.mem_singleton.mp hpo with rfl
          rfl

theorem c8_limit_clause_witness :
    performance_query
        ["segments.date", "campaign.id", "campaign.name", "metrics.conversions"]
        ["conversions"] [] "2025-01-01" "2025-01-31" none (some 5) =
      performance_query
        ["segments.date", "campaign.id", "campaign.name", "metrics.conversions"]
        ["conversions"] [] "2025-01-01" "2025-01-31" none none ++
        " LIMIT " ++ toString (5 : Int) ∧
    performance_query
        ["segments.date", "campaign.id", "campaign.name", "metrics.conversions"]
        ["conversions"] [] "2025-01-01" "2025-01-31" none (some 0) =
      performance_query
        ["segments.date", "campaign.id", "campaign.name", "metrics.conversions"]
        ["conversions"] [] "2025-01-01" "2025-01-31" none none :=
  ⟨(c8_limit_clause
      ["segments.date", "campaign.id", "campaign.name", "metrics.conversions"]
      ["conversions"] [] "2025-01-01" "2025-01-31" none (some 5)).1 5 rfl
      (by decide),
   (c8_limit_clause
      ["segments.date", "campaign.id", "campaign.name", "metrics.conversions"]
      ["conversions"] [] "2025-01-01" "2025-01-31" none (some 0)).2.1
      (Or.inr rfl)⟩

/-!
## CSV writer and reader

Models Python's `csv` module with the default dialect — delimiter `,`,
quotechar `"`, QUOTE_MINIMAL, record terminator CRLF — as used by
`_write_to_csv` (`api_examples/disapproved_ads_reports.py`, lines 28-42)
and `csv.DictWriter` (`api_examples/conversion_reports.py`, lines
138-144), plus `csv.reader` for the round trip.  Cells are `List Char`;
the reader takes fuel (an upper bound on the input length) to stay
structurally recursive.
-/

def csvNeedsQuoting (cell : List Char) : Bool :=
  cell.any (fun c => c == ',' || c == '"' || c == '\r' || c == '\n')

def csvEscapeQuotes : List Char → List Char
  | [] => []
  | c :: rest =>
    if c = '"' then '"' :: '"' :: csvEscapeQuotes rest
    else c :: csvEscapeQuotes rest

/-- One cell as written: quoted with doubled quotechars when it holds a
delimiter, quotechar or line-terminator character, verbatim otherwise. -/
def csvField (cell : List Char) : List Char :=
  if csvNeedsQuoting cell then '"' :: (csvEscapeQuotes cell ++ ['"']) else cell

def joinChar (sep : Char) : List (List Char) → List Char
  | [] => []
  | [x] => x
  | x :: y :: rest => x ++ sep :: joinChar sep (y :: rest)

/-- `csv.writer.writerow`: comma-joined encoded cells plus CRLF. -/
def csvRecord (row : List (List Char)) : List Char :=
  joinChar ',' (row.map csvField) ++ ['\r', '\n']

/-- `csv.writer.writerows`: the file text of a list of rows. -/
def csvFile (rows : List (List (List Char))) : List Char :=
  (rows.map csvRecord).flatten

/-- `_write_to_csv(file_path, headers, response_rows)`: the text written
at `file_path` (opened "w": prior content replaced): a header row then
one record per row. -/
def write_to_csv (headers : List (List Char))
    (rows : List (List (List Char))) : List Char :=
  csvFile (headers :: rows)

/-- An unquoted field: everything up to the next delimiter or record
end, and the rest. -/
def parseBare (s : List Char) : List Char × List Char :=
  (s.takeWhile (fun c => !(c == ',' || c == '\r' || c == '\n')),
   s.dropWhile (fun c => !(c == ',' || c == '\r' || c == '\n')))

/-- A quoted field after its opening quote: `""` is an escaped quote, a
lone quote closes the field. -/
def parseQuotedAux : Nat → List Char → List Char × List Char
  | 0, s => ([], s)
  | _ + 1, [] => ([], [])
  | fuel + 1, c :: rest =>
    if c = '"' then
      match rest with
      | '"' :: rest2 =>
        let p := parseQuotedAux fuel rest2
        ('"' :: p.1, p.2)
      | _ => ([], rest)
    else
      let p := parseQuotedAux fuel rest
      (c :: p.1, p.2)

/-- One field: quoted when it starts with the quotechar, bare otherwise. -/
def parseField (s : List Char) : List Char × List Char :=
  match s with
  | c :: rest =>
    if c = '"' then parseQuotedAux rest.length rest else parseBare (c :: rest)
  | [] => parseBare []

/-- One record's fields and the input left after its terminator. -/
def parseRecordAux : Nat → List Char → List (List Char) × List Char
  | 0, s => ([], s)
  | fuel + 1, s =>
    match (parseField s).2 with
    | ',' :: r =>
      ((parseField s).1 :: (parseRecordAux fuel r).1, (parseRecordAux fuel r).2)
    | '\r' :: '\n' :: r => ([(parseField s).1], r)
    | '\n' :: r => ([(parseField s).1], r)
    | '\r' :: r => ([(parseField s).1], r)
    | _ => ([(parseField s).1], [])

def parseRecordsAux : Nat → List Char → List (List (List Char))
  | 0, _ => []
  | fuel + 1, s =>
    if s.isEmpty then []
    else
      (parseRecordAux s.length s).1 ::
        parseRecordsAux fuel (parseRecordAux s.length s).2

/-- `csv.reader` over a whole file text. -/
def parseCsv (s : List Char) : List (List (List Char)) :=
  parseRecordsAux s.length s

/-- The shapes that can follow a field: end of input, a delimiter, or a
record terminator. -/
def FieldStop (rest : List Char) : Prop :=
  rest = [] ∨ (∃ r', rest = ',' :: r') ∨ (∃ r', rest = '\r' :: r')

theorem parseQuotedAux_escape (cell : List Char) :
    ∀ (fuel : Nat) (rest : List Char),
      (csvEscapeQuotes cell).length + 1 ≤ fuel →
      FieldStop rest →
      parseQuotedAux fuel (csvEscapeQuotes cell ++ '"' :: rest) = (cell, rest) := by
  induction cell with
  | nil =>
    intro fuel rest hfuel hrest
    match fuel, hfuel with
    | f + 1, _ =>
      show parseQuotedAux (f + 1) ('"' :: rest) = ([], rest)
      rcases hrest with rfl | ⟨r', rfl⟩ | ⟨r', rfl⟩ <;> rfl
  | cons c cs ih =>
    intro fuel rest hfuel hrest
    rcases eq_or_ne c '"' with rfl | hc
    · have hesc : csvEscapeQuotes ('"' :: cs) = '"' :: '"' :: csvEscapeQuotes cs := rfl
      rw [hesc] at hfuel ⊢
      match fuel, hfuel with
      | f + 1, hf =>
        have hstep : parseQuotedAux (f + 1)
            ('"' :: '"' :: (csvEscapeQuotes cs ++ '"' :: rest)) =
            ('"' :: (parseQuotedAux f (csvEscapeQuotes cs ++ '"' :: rest)).1,
             (parseQuotedAux f (csvEscapeQuotes cs ++ '"' :: rest)).2) := rfl
        show parseQuotedAux (f + 1)
          ('"' :: '"' :: (csvEscapeQuotes cs ++ '"' :: rest)) = ('"' :: cs, rest)
        simp only [List.length_cons] at hf
        rw [hstep, ih f rest (by omega) hrest]
    · have hesc : csvEscapeQuotes (c :: cs) = c :: csvEscapeQuotes cs := by
        rw [csvEscapeQuotes, if_neg hc]
      rw [hesc] at hfuel ⊢
      match fuel, hfuel with
      | f + 1, hf =>
        show parseQuotedAux (f + 1) (c :: (csvEscapeQuotes cs ++ '"' :: rest)) =
          (c :: cs, rest)
        have hstep : parseQuotedAux (f + 1) (c :: (csvEscapeQuotes cs ++ '"' :: rest)) =
            if c = '"' then
              (match csvEscapeQuotes cs ++ '"' :: rest with
                | '"' :: rest2 =>
                  ('"' :: (parseQuotedAux f rest2).1, (parseQuotedAux f rest2).2)
                | _ => ([], csvEscapeQuotes cs ++ '"' :: rest))
            else ((c :: (parseQuotedAux f (csvEscapeQuotes cs ++ '"' :: rest)).1),
              (parseQuotedAux f (csvEscapeQuotes cs ++ '"' :: rest)).2) := rfl
        simp only [List.length_cons] at hf
        rw [hstep, if_neg hc, ih f rest (by omega) hrest]

theorem parseBare_encoded (cell rest : List Char)
    (hc : ∀ c ∈ cell, (c == ',' || c == '"' || c == '\r' || c == '\n') = false)
    (hrest : FieldStop rest) :
    parseBare (cell ++ rest) = (cell, rest) := by
  have hp : ∀ c ∈ cell, (!(c == ',' || c == '\r' || c == '\n')) = true := by
    intro c hcm
    have h := hc c hcm
    simp only [Bool.or_eq_false_iff] at h
    simp [h.1.1.1, h.1.2, h.2]
  unfold parseBare
  rw [List.takeWhile_append_of_pos hp, List.dropWhile_append_of_pos hp]
  rcases hrest with rfl | ⟨r', rfl⟩ | ⟨r', rfl⟩ <;> simp

theorem parseField_encoded (f rest : List Char) (hrest : FieldStop rest) :
    parseField (csvField f ++ rest) = (f, rest) := by
  by_cases hq : csvNeedsQuoting f = true
  · have hfield : csvField f = '"' :: (csvEscapeQuotes f ++ ['"']) := by
      unfold csvField
      rw [if_pos hq]
    have hassoc : (csvEscapeQuotes f ++ ['"']) ++ rest =
        csvEscapeQuotes f ++ '"' :: rest := by
      rw [List.append_assoc]
      rfl
    rw [hfield, List.cons_append, hassoc]
    show parseQuotedAux (csvEscapeQuotes f ++ '"' :: rest).length
      (csvEscapeQuotes f ++ '"' :: rest) = (f, rest)
    apply parseQuotedAux_escape f _ rest ?_ hrest
    rw [List.length_append]
    simp
  · have hq' : csvNeedsQuoting f = false := by
      cases h2 : csvNeedsQuoting f
      · rfl
      · exact absurd h2 hq
    have hall : ∀ c ∈ f, (c == ',' || c == '"' || c == '\r' || c == '\n') = false := by
      intro c hcm
      have := List.any_eq_false.mp hq' c hcm
      cases hb : (c == ',' || c == '"' || c == '\r' || c == '\n')
      · rfl
      · exact absurd hb this
    have hfield : csvField f = f := by
      unfold csvField
      rw [hq']
      rfl
    rw [hfield]
    cases f with
    | nil =>
      rcases hrest with rfl | ⟨r', rfl⟩ | ⟨r', rfl⟩ <;> rfl
    | cons c cs =>
      have hcq : c ≠ '"' := by
        intro hc2
        subst hc2
        exact absurd (hall '"' (by simp)) (by decide)
      rw [List.cons_append, parseField, if_neg hcq, ← List.cons_append]
      exact parseBare_encoded (c :: cs) rest hall hrest

theorem parseRecordAux_record : ∀ (row : List (List Char)) (rest : List Char)
    (fuel : Nat), row ≠ [] → row.length ≤ fuel →
    parseRecordAux fuel (csvRecord row ++ rest) = (row, rest)
  | [], _, _, hne, _ => absurd rfl hne
  | [f], rest, fuel, _, hfuel => by
    match fuel, hfuel with
    | fu + 1, _ =>
      have hrec : csvRecord [f] ++ rest = csvField f ++ ('\r' :: '\n' :: rest) := by
        show (joinChar ',' [csvField f] ++ ['\r', '\n']) ++ rest = _
        rw [show joinChar ',' [csvField f] = csvField f from rfl, List.append_assoc]
        rfl
      rw [hrec, parseRecordAux,
        parseField_encoded f _ (Or.inr (Or.inr ⟨'\n' :: rest, rfl⟩))]
      rfl
  | f :: f2 :: more, rest, fuel, _, hfuel => by
    match fuel, hfuel with
    | fu + 1, hf =>
      have hrec : csvRecord (f :: f2 :: more) ++ rest =
          csvField f ++ (',' :: (csvRecord (f2 :: more) ++ rest)) := by
        show (joinChar ',' (csvField f :: csvField f2 :: more.map csvField)
          ++ ['\r', '\n']) ++ rest = _
        rw [show joinChar ',' (csvField f :: csvField f2 :: more.map csvField) =
          csvField f ++ ',' :: joinChar ',' (csvField f2 :: more.map csvField)
          from rfl]
        show ((csvField f ++ ',' :: joinChar ',' (csvField f2 :: more.map csvField))
          ++ ['\r', '\n']) ++ rest =
          csvField f ++ (',' :: ((joinChar ',' (csvField f2 :: more.map csvField)
            ++ ['\r', '\n']) ++ rest))
        simp [List.append_assoc]
      rw [hrec, parseRecordAux,
        parseField_encoded f _ (Or.inr (Or.inl ⟨_, rfl⟩))]
      simp only [List.length_cons] at hf
      show (f :: (parseRecordAux fu (csvRecord (f2 :: more) ++ rest)).1,
        (parseRecordAux fu (csvRecord (f2 :: more) ++ rest)).2) =
        (f :: f2 :: more, rest)
      rw [parseRecordAux_record (f2 :: more) rest fu (by simp)
        (by simp only [List.length_cons]; omega)]

theorem csvRecord_length_two_le (row : List (List Char)) :
    2 ≤ (csvRecord row).length := by
  unfold csvRecord
  rw [List.length_append]
  simp

theorem joinChar_length_ge : ∀ (sep : Char) (l : List (List Char)),
    l.length ≤ (joinChar sep l).length + 1
  | _, [] => by simp [joinChar]
  | _, [x] => by simp [joinChar]
  | sep, x :: y :: r => by
    have ih := joinChar_length_ge sep (y :: r)
    show (x :: y :: r).length ≤ (x ++ sep :: joinChar sep (y :: r)).length + 1
    simp only [List.length_cons, List.length_append] at ih ⊢
    omega

theorem row_length_le_record (row : List (List Char)) :
    row.length ≤ (csvRecord row).length := by
  have h := joinChar_length_ge ',' (row.map csvField)
  unfold csvRecord
  rw [List.length_append]
  rw [List.length_map] at h
  simp only [List.length_cons, List.length_nil]
  omega

theorem rows_length_le_file : ∀ (rows : List (List (List Char))),
    rows.length ≤ (csvFile rows).length
  | [] => by simp [csvFile]
  | r :: rs => by
    have ih := rows_length_le_file rs
    have h2 := csvRecord_length_two_le r
    rw [show csvFile (r :: rs) = csvRecord r ++ csvFile rs from rfl,
      List.length_append, List.length_cons]
    omega

theorem parseRecordsAux_file : ∀ (rows : List (List (List Char))) (fuel : Nat),
    rows.length ≤ fuel → (∀ r ∈ rows, r ≠ []) →
    parseRecordsAux fuel (csvFile rows) = rows
  | [], fuel, _, _ => by
    cases fuel with
    | zero => rfl
    | succ fu => rfl
  | row :: rs, fuel, hfuel, hne => by
    match fuel, hfuel with
    | fu + 1, hf =>
      have hfile : csvFile (row :: rs) = csvRecord row ++ csvFile rs := rfl
      have hnonempty : ((csvRecord row ++ csvFile rs).isEmpty = true) = False := by
        have h2 := csvRecord_length_two_le row
        simp only [List.isEmpty_iff, eq_iff_iff, iff_false]
        intro hemp
        rw [List.append_eq_nil] at hemp
        rw [hemp.1] at h2
        simp at h2
      rw [hfile, parseRecordsAux, if_neg (by rw [hnonempty]; exact id)]
      have hlen : row.length ≤ (csvRecord row ++ csvFile rs).length := by
        have h1 := row_length_le_record row
        rw [List.length_append]
        omega
      rw [parseRecordAux_record row (csvFile rs) _ (hne row (by simp)) hlen]
      simp only [List.length_cons] at hf
      rw [parseRecordsAux_file rs fu (by omega) (fun r hr => hne r (by simp [hr]))]

theorem parseCsv_csvFile (rows : List (List (List Char)))
    (hne : ∀ r ∈ rows, r ≠ []) :
    parseCsv (csvFile rows) = rows :=
  parseRecordsAux_file rows _ (rows_length_le_file rows) hne

/-- C5: writing a header row and data rows to CSV and re-reading the
file yields exactly the original rows — every row, every column, in
header order, quoting and quote-escaping included; and (the program's
column names containing no delimiter, quote or line-terminator
characters) the header line written is exactly the column names joined
by commas followed by the CRLF line terminator. -/
theorem c5_csv_round_trip (headers : List (List Char))
    (rows : List (List (List Char)))
    (hh : headers ≠ [])
    (hr : ∀ r ∈ rows, r.length = headers.length)
    (hhq : ∀ h ∈ headers, csvNeedsQuoting h = false) :
    parseCsv (write_to_csv headers rows) = headers :: rows ∧
    write_to_csv headers rows =
      (joinChar ',' headers ++ ['\r', '\n']) ++ csvFile rows := by
  constructor
  · apply parseCsv_csvFile
    intro r hrm
    rcases List.mem_cons.mp hrm with rfl | hrm2
    · exact hh
    · intro hrnil
      have hlen := hr r hrm2
      rw [hrnil] at hlen
      simp only [List.length_nil] at hlen
      exact hh (List.eq_nil_of_length_eq_zero hlen.symm)
  · show csvFile (headers :: rows) = _
    rw [show csvFile (headers :: rows) = csvRecord headers ++ csvFile rows from rfl]
    unfold csvRecord
    have hfix : ∀ h ∈ headers, csvField h = h := by
      intro h hm
      unfold csvField
      rw [hhq h hm]
      rfl
    have hmap : headers.map csvField = headers := by
      clear hh hr
      induction headers with
      | nil => rfl
      | cons a t ih =>
        rw [List.map_cons, hfix a (by simp),
          ih (fun x hx => hhq x (by simp [hx])) (fun x hx => hfix x (by simp [hx]))]
    rw [hmap]

theorem c5_csv_round_trip_witness :
    parseCsv (write_to_csv [['I', 'D'], ['N', 'a', 'm', 'e']]
        [[['1'], ['x', ',', 'y']], [['2'], ['a', '"', 'b']]]) =
      [['I', 'D'], ['N', 'a', 'm', 'e']] ::
        [[['1'], ['x', ',', 'y']], [['2'], ['a', '"', 'b']]] ∧
    write_to_csv [['I', 'D'], ['N', 'a', 'm', 'e']]
        [[['1'], ['x', ',', 'y']], [['2'], ['a', '"', 'b']]] =
      (joinChar ',' [['I', 'D'], ['N', 'a', 'm', 'e']] ++ ['\r', '\n']) ++
        csvFile [[['1'], ['x', ',', 'y']], [['2'], ['a', '"', 'b']]] :=
  c5_csv_round_trip [['I', 'D'], ['N', 'a', 'm', 'e']]
    [[['1'], ['x', ',', 'y']], [['2'], ['a', '"', 'b']]]
    (by decide) (by decide) (by decide)

/-!
## Console rendering and output dispatch

Shallow embedding of `_process_and_output_results`
(`api_examples/conversion_reports.py`, lines 104-144).  Rows are the
insertion-ordered dicts built by the row flattening; scalar values are
already `str`-rendered.  Effects — printed lines and file writes — are
returned as data.
-/

/-- `row_data[header]` (dict lookup). -/
def dictGet (row : List (String × String)) (h : String) : String :=
  match row.find? (fun kv => kv.1 == h) with
  | some kv => kv.2
  | none => ""

/-- One `column_widths[header] = max(column_widths[header], len(str(value)))`
update (line 123). -/
def updWidth (w : String → Nat) (kv : String × String) : String → Nat :=
  fun h => if h = kv.1 then max (w h) kv.2.length else w h

/-- The `column_widths` dict after lines 120-123, as a function; the
initial dict maps each header to its length. -/
def consoleWidths (headers : List String)
    (rows : List (List (String × String))) : String → Nat :=
  rows.foldl (fun w row => row.foldl updWidth w)
    (fun h => if headers.contains h then h.length else 0)

/-- `s.ljust(w)`: pad on the right with spaces, never truncate. -/
def ljust (s : String) (w : Nat) : String :=
  s ++ String.mk (List.replicate (w - s.length) ' ')

/-- The console lines printed by lines 118-137: the header line, a
dashed separator of the header line's length, then one line per row,
every cell left-justified to its column's width and columns joined by
`" | "`. -/
def consoleLines (rows : List (List (String × String))) : List String :=
  match rows with
  | [] => []
  | first :: _ =>
    let headers := first.map Prod.fst
    let w := consoleWidths headers rows
    let headerLine := pyJoin " | " (headers.map (fun h => ljust h (w h)))
    headerLine :: String.mk (List.replicate headerLine.length '-') ::
      rows.map (fun row =>
        pyJoin " | " (headers.map (fun h => ljust (dictGet row h) (w h))))

structure OutputEffects where
  printed : List String
  fileWrites : List (String × String)
deriving Repr, DecidableEq

/-- `csv.DictWriter(csvfile, fieldnames)` then `writeheader()` and
`writerows(rows)`: each row is projected onto `fieldnames` in order
(`restval=""` for a missing key). -/
def dictWriterText (fieldnames : List String)
    (rows : List (List (String × String))) : String :=
  String.mk (write_to_csv (fieldnames.map String.toList)
    (rows.map (fun row => fieldnames.map (fun h => (dictGet row h).toList))))

/-- `_process_and_output_results(results_data, output_format, output_file)`
as its observable effects. -/
def process_and_output_results (results_data : List (List (String × String)))
    (output_format output_file : String) : OutputEffects :=
  if results_data.isEmpty then
    ⟨["No data found matching the criteria."], []⟩
  else if output_format = "console" then
    ⟨consoleLines results_data, []⟩
  else if output_format = "csv" then
    ⟨["Results successfully written to " ++ output_file],
     [(output_file,
       dictWriterText ((results_data.headD []).map Prod.fst) results_data)]⟩
  else ⟨[], []⟩

/-- C10: called with an empty row list, `_process_and_output_results`
prints the no-data message and returns without touching the destination
file, whatever the requested output format: no file is created or
truncated and no header row is written. -/
theorem c10_empty_rows_no_file_write (output_format output_file : String) :
    process_and_output_results [] output_format output_file =
      ⟨["No data found matching the criteria."], []⟩ := rfl

/-- The lengths contributed to column `h` by one row's items. -/
def rowContrib (row : List (String × String)) (h : String) : Nat :=
  ((row.filter (fun kv => kv.1 == h)).map (fun kv => kv.2.length)).foldr max 0

/-- The lengths contributed to column `h` by all rows. -/
def colMax (rows : List (List (String × String))) (h : String) : Nat :=
  (rows.map (fun r => rowContrib r h)).foldr max 0

theorem foldl_updWidth : ∀ (row : List (String × String)) (w : String → Nat)
    (h : String), (row.foldl updWidth w) h = max (w h) (rowContrib row h)
  | [], w, h => by simp [rowContrib]
  | kv :: rest, w, h => by
    show (rest.foldl updWidth (updWidth w kv)) h = _
    rw [foldl_updWidth rest (updWidth w kv) h]
    unfold updWidth rowContrib
    by_cases hk : h = kv.1
    · subst hk
      rw [if_pos rfl, List.filter_cons, if_pos (by simp), List.map_cons,
        List.foldr_cons]
      omega
    · rw [if_neg hk, List.filter_cons, if_neg (by simp; exact fun hc => hk hc.symm)]

theorem foldl_rows_updWidth : ∀ (rows : List (List (String × String)))
    (w0 : String → Nat) (h : String),
    (rows.foldl (fun w row => row.foldl updWidth w) w0) h =
      max (w0 h) (colMax rows h)
  | [], w0, h => by simp [colMax]
  | r :: rs, w0, h => by
    show (rs.foldl (fun w row => row.foldl updWidth w) (r.foldl updWidth w0)) h = _
    rw [foldl_rows_updWidth rs (r.foldl updWidth w0) h, foldl_updWidth r w0 h]
    unfold colMax
    rw [List.map_cons, List.foldr_cons]
    omega

theorem rowContrib_dictGet : ∀ (row : List (String × String)) (h : String),
    (row.map Prod.fst).Nodup → h ∈ row.map Prod.fst →
    rowContrib row h = (dictGet row h).length
  | [], h, _, hm => by simp at hm
  | kv :: rest, h, hnd, hm => by
    rcases eq_or_ne kv.1 h with hk | hk
    · have hnot : h ∉ rest.map Prod.fst := by
        rw [List.map_cons] at hnd
        rw [← hk]
        exact (List.nodup_cons.mp hnd).1
      have hfilter : rest.filter (fun kv2 => kv2.1 == h) = [] := by
        rw [List.filter_eq_nil_iff]
        intro kv2 hkv2
        simp only [beq_iff_eq]
        intro hq
        exact hnot (hq ▸ List.mem_map_of_mem Prod.fst hkv2)
      unfold rowContrib dictGet
      rw [List.filter_cons, if_pos (by simp [hk]), hfilter,
        List.find?_cons_of_pos _ (by simp [hk])]
      simp
    · have hm2 : h ∈ rest.map Prod.fst := by
        rw [List.map_cons] at hm
        rcases List.mem_cons.mp hm with h1 | h2
        · exact absurd h1.symm hk
        · exact h2
      have ih := rowContrib_dictGet rest h
        (by rw [List.map_cons] at hnd; exact (List.nodup_cons.mp hnd).2) hm2
      unfold rowContrib dictGet at ih ⊢
      rw [List.filter_cons, if_neg (by simp [hk]),
        List.find?_cons_of_neg _ (by simp [hk])]
      exact ih

theorem colMax_dictGet (rows : List (List (String × String)))
    (headers : List String) (h : String) (hnd : headers.Nodup)
    (hm : h ∈ headers) (hu : ∀ r ∈ rows, r.map Prod.fst = headers) :
    colMax rows h = (rows.map (fun r => (dictGet r h).length)).foldr max 0 := by
  unfold colMax
  congr 1
  apply List.map_congr_left
  intro r hr
  exact rowContrib_dictGet r h (by rw [hu r hr]; exact hnd)
    (by rw [hu r hr]; exact hm)

/-- C9: for every nonempty row list rendered to console (rows are
uniform dicts with the first row's keys, keys unique), each column's
printed width equals the maximum of the header's length and of every
rendered value's length in that column, and the printed lines are
exactly: every cell — header and data alike — left-justified to its
column's width with columns joined by `" | "`, after the header line a
dashed separator of the header line's length. -/
theorem c9_console_render (first : List (String × String))
    (rest : List (List (String × String)))
    (hnd : (first.map Prod.fst).Nodup)
    (hu : ∀ r ∈ first :: rest, r.map Prod.fst = first.map Prod.fst) :
    (∀ h ∈ first.map Prod.fst,
      consoleWidths (first.map Prod.fst) (first :: rest) h =
        max h.length
          (((first :: rest).map (fun r => (dictGet r h).length)).foldr max 0)) ∧
    consoleLines (first :: rest) =
      pyJoin " | " ((first.map Prod.fst).map (fun h =>
        ljust h (consoleWidths (first.map Prod.fst) (first :: rest) h))) ::
      String.mk (List.replicate (pyJoin " | " ((first.map Prod.fst).map (fun h =>
        ljust h (consoleWidths (first.map Prod.fst) (first :: rest) h)))).length
        '-') ::
      (first :: rest).map (fun row =>
        pyJoin " | " ((first.map Prod.fst).map (fun h =>
          ljust (dictGet row h) (consoleWidths (first.map Prod.fst)
            (first :: rest) h)))) := by
  constructor
  · intro h hm
    unfold consoleWidths
    rw [foldl_rows_updWidth,
      if_pos (show (first.map Prod.fst).contains h = true from List.elem_iff.mpr hm),
      colMax_dictGet (first :: rest) (first.map Prod.fst) h hnd hm hu]
  · rfl

theorem c9_console_render_witness :
    ((["M1", "M2"] : List String).Nodup) ∧
    consoleWidths (List.map Prod.fst [("M1", "Value1"), ("M2", "A")])
      [[("M1", "Value1"), ("M2", "A")], [("M1", "Value2"), ("M2", "B")]] "M1" = 6 ∧
    consoleWidths (List.map Prod.fst [("M1", "Value1"), ("M2", "A")])
      [[("M1", "Value1"), ("M2", "A")], [("M1", "Value2"), ("M2", "B")]] "M2" = 2 ∧
    consoleLines [[("M1", "Value1"), ("M2", "A")], [("M1", "Value2"), ("M2", "B")]] =
      ["M1     | M2", "-----------", "Value1 | A ", "Value2 | B "] := by
  have h := c9_console_render [("M1", "Value1"), ("M2", "A")]
    [[("M1", "Value2"), ("M2", "B")]] (by decide)
    (by intro r hr; fin_cases hr <;> rfl)
  refine ⟨by decide, ?_, ?_, ?_⟩
  · rw [h.1 "M1" (by decide)]
    decide
  · rw [h.1 "M2" (by decide)]
    decide
  · rw [h.2]
    decide

/-!
## Concurrent multi-report fetch

Shallow embedding of `fetch_report_threaded` and the collection loop of
`main` (`api_examples/parallel_report_downloader_optimized.py`, lines
42-80 and 156-180).  A collaborator stream is modelled by the batches
it yields before either finishing cleanly or raising a
`GoogleAdsException` (a raise at `search_stream` call time is
`batches = []`).  `as_completed` delivers futures in an arbitrary
completion order, so the collection theorem quantifies over every
permutation of the submitted tasks.
-/

structure GAException where
  requestId : String
  statusName : String
  messages : List String
deriving Repr, DecidableEq

structure StreamModel (Row : Type) where
  batches : List (List Row)
  failure : Option GAException

/-- `fetch_report_threaded(client, customer_id, query, report_name)`:
appends every delivered batch's rows to `rows`; a raised
`GoogleAdsException` is caught — never re-raised — and returned
alongside the rows collected so far. -/
def fetch_report_threaded {Row : Type} (report_name : String)
    (stream : StreamModel Row) : String × List Row × Option GAException :=
  (report_name, stream.batches.flatten, stream.failure)

/-- Python dict assignment `m[k] = v`. -/
def dictInsert {β : Type} (m : List (String × β)) (k : String) (v : β) :
    List (String × β) :=
  if m.any (fun p => p.1 == k) then
    m.map (fun p => if p.1 == k then (k, v) else p)
  else m ++ [(k, v)]

def dictLookup {β : Type} (m : List (String × β)) (k : String) : Option β :=
  (m.find? (fun p => p.1 == k)).map (fun p => p.2)

/-- The `all_results` dict after the `as_completed` collection loop
(lines 174-180), given the tasks in their completion order. -/
def collect_results {Row : Type} (completed : List (String × StreamModel Row)) :
    List (String × (List Row × Option GAException)) :=
  completed.foldl
    (fun acc t => dictInsert acc t.1 (fetch_report_threaded t.1 t.2).2) []

theorem foldl_dictInsert_append {Row : Type} :
    ∀ (l : List (String × StreamModel Row))
      (acc : List (String × (List Row × Option GAException))),
    (l.map Prod.fst).Nodup →
    (∀ t ∈ l, ∀ p ∈ acc, p.1 ≠ t.1) →
    l.foldl (fun a t => dictInsert a t.1 (fetch_report_threaded t.1 t.2).2) acc =
      acc ++ l.map (fun t => (t.1, (t.2.batches.flatten, t.2.failure)))
  | [], acc, _, _ => by simp
  | t :: ts, acc, hnd, hdisj => by
    show ts.foldl _ (dictInsert acc t.1 (fetch_report_threaded t.1 t.2).2) = _
    have hins : dictInsert acc t.1 (fetch_report_threaded t.1 t.2).2 =
        acc ++ [(t.1, (t.2.batches.flatten, t.2.failure))] := by
      have hnone : ¬ (acc.any (fun p => p.1 == t.1) = true) := by
        intro hany
        rcases List.any_eq_true.mp hany with ⟨p, hp, hpk⟩
        exact hdisj t (by simp) p hp (by simpa using hpk)
      unfold dictInsert
      rw [if_neg hnone]
      rfl
    have hnd2 : (ts.map Prod.fst).Nodup := by
      rw [List.map_cons] at hnd
      exact (List.nodup_cons.mp hnd).2
    have hkey : t.1 ∉ ts.map Prod.fst := by
      rw [List.map_cons] at hnd
      exact (List.nodup_cons.mp hnd).1
    have hdisj2 : ∀ t2 ∈ ts, ∀ p ∈ acc ++ [(t.1, (t.2.batches.flatten, t.2.failure))],
        p.1 ≠ t2.1 := by
      intro t2 ht2 p hp
      rcases List.mem_append.mp hp with hp1 | hp2
      · exact hdisj t2 (by simp [ht2]) p hp1
      · rcases List.mem_singleton.mp hp2 with rfl
        intro hc
        exact hkey (hc ▸ List.mem_map_of_mem Prod.fst ht2)
    rw [hins, foldl_dictInsert_append ts
      (acc ++ [(t.1, (t.2.batches.flatten, t.2.failure))]) hnd2 hdisj2,
      List.append_assoc]
    rfl

theorem collect_results_eq_map {Row : Type}
    (completed : List (String × StreamModel Row))
    (hnd : (completed.map Prod.fst).Nodup) :
    collect_results completed =
      completed.map (fun t => (t.1, (t.2.batches.flatten, t.2.failure))) := by
  unfold collect_results
  rw [foldl_dictInsert_append completed [] hnd (by intro t _ p hp; simp at hp)]
  rfl

theorem dictLookup_map {Row : Type} :
    ∀ (l : List (String × StreamModel Row)) (t : String × StreamModel Row),
    (l.map Prod.fst).Nodup → t ∈ l →
    dictLookup (l.map (fun t2 => (t2.1, (t2.2.batches.flatten, t2.2.failure)))) t.1 =
      some (t.2.batches.flatten, t.2.failure)
  | [], t, _, hm => absurd hm (List.not_mem_nil t)
  | x :: xs, t, hnd, hm => by
    rcases List.mem_cons.mp hm with rfl | hm2
    · unfold dictLookup
      rw [List.map_cons, List.find?_cons_of_pos _ (by simp)]
      rfl
    · have hkey : x.1 ≠ t.1 := by
        rw [List.map_cons] at hnd
        intro hc
        exact (List.nodup_cons.mp hnd).1 (hc ▸ List.mem_map_of_mem Prod.fst hm2)
      have ih := dictLookup_map xs t
        (by rw [List.map_cons] at hnd; exact (List.nodup_cons.mp hnd).2) hm2
      unfold dictLookup at ih ⊢
      rw [List.map_cons, List.find?_cons_of_neg _ (by simpa using hkey)]
      exact ih

/-- C2 (amended): for N submitted tasks with pairwise-distinct labels of
which exactly one's stream raises, collected in any completion order:
the results map has exactly N entries; the failing task's entry holds
the rows its stream delivered before raising — empty when it failed
before yielding any — together with the non-null captured exception;
every other entry holds its full row list and a null error; and no
exception is re-raised across a task boundary (the per-task fetch is
total and every outcome is recorded). -/
theorem c2_concurrent_fetch {Row : Type}
    (tasks completed : List (String × StreamModel Row))
    (hperm : completed.Perm tasks)
    (hnd : (tasks.map Prod.fst).Nodup)
    (_hone : (tasks.filter (fun t => t.2.failure.isSome)).length = 1) :
    (collect_results completed).length = tasks.length ∧
    (∀ t ∈ tasks, t.2.failure = none →
      dictLookup (collect_results completed) t.1 =
        some (t.2.batches.flatten, none)) ∧
    (∀ t ∈ tasks, t.2.failure ≠ none →
      dictLookup (collect_results completed) t.1 =
        some (t.2.batches.flatten, t.2.failure)) := by
  have hndc : (completed.map Prod.fst).Nodup :=
    (List.Perm.nodup_iff (hperm.map Prod.fst)).mpr hnd
  have hmap := collect_results_eq_map completed hndc
  refine ⟨?_, ?_, ?_⟩
  · rw [hmap, List.length_map]
    exact hperm.length_eq
  · intro t ht hfail
    rw [hmap, dictLookup_map completed t hndc (hperm.mem_iff.mpr ht), hfail]
  · intro t ht _
    rw [hmap, dictLookup_map completed t hndc (hperm.mem_iff.mpr ht)]

/-- C2 counterexample: a stream that yields one batch of rows and then
raises leaves those rows in the failing task's entry alongside the
captured exception — the entry is `([3], some e)`, not the empty row
list the claim states. -/
theorem c2_counterexample :
    collect_results [("A", (⟨[[1], [2]], none⟩ : StreamModel Nat)),
        ("B", ⟨[[3]], some ⟨"req-1", "INTERNAL_ERROR", ["boom"]⟩⟩)] =
      [("A", ([1, 2], none)),
       ("B", ([3], some ⟨"req-1", "INTERNAL_ERROR", ["boom"]⟩))] ∧
    dictLookup (collect_results [("A", (⟨[[1], [2]], none⟩ : StreamModel Nat)),
        ("B", ⟨[[3]], some ⟨"req-1", "INTERNAL_ERROR", ["boom"]⟩⟩)]) "B" ≠
      some ([], some ⟨"req-1", "INTERNAL_ERROR", ["boom"]⟩) := by
  constructor
  · rfl
  · decide

theorem c2_concurrent_fetch_witness :
    (collect_results
        [("B", (⟨[], some ⟨"req-1", "INTERNAL_ERROR", ["boom"]⟩⟩ : StreamModel Nat)),
         ("A", ⟨[[1], [2]], none⟩)]).length = 2 ∧
    dictLookup (collect_results
        [("B", (⟨[], some ⟨"req-1", "INTERNAL_ERROR", ["boom"]⟩⟩ : StreamModel Nat)),
         ("A", ⟨[[1], [2]], none⟩)]) "A" = some ([1, 2], none) ∧
    dictLookup (collect_results
        [("B", (⟨[], some ⟨"req-1", "INTERNAL_ERROR", ["boom"]⟩⟩ : StreamModel Nat)),
         ("A", ⟨[[1], [2]], none⟩)]) "B" =
      some ([], some ⟨"req-1", "INTERNAL_ERROR", ["boom"]⟩) := by
  have h := c2_concurrent_fetch
    [("A", (⟨[[1], [2]], none⟩ : StreamModel Nat)),
     ("B", ⟨[], some ⟨"req-1", "INTERNAL_ERROR", ["boom"]⟩⟩)]
    [("B", (⟨[], some ⟨"req-1", "INTERNAL_ERROR", ["boom"]⟩⟩ : StreamModel Nat)),
     ("A", ⟨[[1], [2]], none⟩)]
    (List.Perm.swap _ _ _) (by decide) (by decide)
  exact ⟨h.1,
    h.2.1 ("A", ⟨[[1], [2]], none⟩) (by simp) rfl,
    h.2.2 ("B", ⟨[], some ⟨"req-1", "INTERNAL_ERROR", ["boom"]⟩⟩) (by simp)
      (by simp)⟩
